import Mathlib

/-!
Verification of the build descriptor (`setup.py`) and test-selection logic
(`tests/main_test.py`) of the `test_databricks_asset_bundles` repository.

The build descriptor computes
`version = test_databricks_asset_bundles.__version__ + "+" + local_version`
where `local_version = datetime.datetime.utcnow().strftime("%Y%m%d.%H%M%S")`,
and hands a fixed metadata record to `setuptools.setup`.

The embedding models a UTC clock reading as a calendar datetime (the value
returned by `datetime.datetime.utcnow()`), the `strftime` call as fixed-width
zero-padded decimal rendering of the calendar fields, and the metadata record
as a flat structure.  Proleptic-Gregorian calendar arithmetic (`toSec`,
`toMicro`) gives the absolute time of a clock reading, which is how claims
about builds "separated by at least one second" are stated.
-/

namespace SetupPy

/-- A UTC clock reading as produced by `datetime.datetime.utcnow()`:
calendar fields year/month/day/hour/minute/second plus microseconds. -/
structure UTCTime where
  year : Nat
  month : Nat
  day : Nat
  hour : Nat
  minute : Nat
  second : Nat
  micro : Nat
deriving DecidableEq, Repr

/-- Gregorian leap-year rule (as implemented by Python `datetime`). -/
def isLeap (y : Nat) : Bool :=
  (y % 4 == 0 && y % 100 != 0) || (y % 400 == 0)

/-- Number of days in month `m` of year `y` (0 outside months 1..12). -/
def monthDays (y m : Nat) : Nat :=
  if m = 2 then (if isLeap y then 29 else 28)
  else if m = 4 ∨ m = 6 ∨ m = 9 ∨ m = 11 then 30
  else if 1 ≤ m ∧ m ≤ 12 then 31
  else 0

/-- Days of year `y` that lie strictly before month `m` (month 1 starts at 0). -/
def daysBeforeMonth (y m : Nat) : Nat :=
  (if 2 ≤ m then 31 else 0) + (if 3 ≤ m then (if isLeap y then 29 else 28) else 0) +
  (if 4 ≤ m then 31 else 0) + (if 5 ≤ m then 30 else 0) + (if 6 ≤ m then 31 else 0) +
  (if 7 ≤ m then 30 else 0) + (if 8 ≤ m then 31 else 0) + (if 9 ≤ m then 31 else 0) +
  (if 10 ≤ m then 30 else 0) + (if 11 ≤ m then 31 else 0) + (if 12 ≤ m then 30 else 0) +
  (if 13 ≤ m then 31 else 0)

/-- Number of days in year `y`. -/
def daysInYear (y : Nat) : Nat := if isLeap y then 366 else 365

/-- Days of the proleptic Gregorian calendar strictly before year `y`
(year 1, January 1st is day 0). -/
def daysBeforeYear (y : Nat) : Nat :=
  365 * (y - 1) + ((y - 1) / 4 + (y - 1) / 400 - (y - 1) / 100)

/-- Absolute day index of a clock reading. -/
def toDays (t : UTCTime) : Nat :=
  daysBeforeYear t.year + daysBeforeMonth t.year t.month + (t.day - 1)

/-- Absolute second index of a clock reading (no leap seconds, matching
Python `datetime` arithmetic). -/
def toSec (t : UTCTime) : Nat :=
  toDays t * 86400 + t.hour * 3600 + t.minute * 60 + t.second

/-- Absolute microsecond index of a clock reading. -/
def toMicro (t : UTCTime) : Nat :=
  toSec t * 1000000 + t.micro

/-- A clock reading with fields in the ranges `datetime.datetime` guarantees. -/
def Valid (t : UTCTime) : Prop :=
  1 ≤ t.year ∧ t.year ≤ 9999 ∧ 1 ≤ t.month ∧ t.month ≤ 12 ∧
  1 ≤ t.day ∧ t.day ≤ monthDays t.year t.month ∧
  t.hour ≤ 23 ∧ t.minute ≤ 59 ∧ t.second ≤ 59 ∧ t.micro ≤ 999999

instance (t : UTCTime) : Decidable (Valid t) := by
  unfold Valid; infer_instance

/-- Strict time order of clock readings at second granularity
(lexicographic on the calendar fields, which for valid readings agrees with
absolute time, see `toSec_lt_of_timeLt`). -/
def TimeLt (a b : UTCTime) : Prop :=
  a.year < b.year ∨ (a.year = b.year ∧
  (a.month < b.month ∨ (a.month = b.month ∧
  (a.day < b.day ∨ (a.day = b.day ∧
  (a.hour < b.hour ∨ (a.hour = b.hour ∧
  (a.minute < b.minute ∨ (a.minute = b.minute ∧
  a.second < b.second)))))))))

instance (a b : UTCTime) : Decidable (TimeLt a b) := by
  unfold TimeLt; infer_instance

/-- Two clock readings fall within the same second: all calendar fields
agree (the microsecond field is unconstrained). -/
def SameSecond (a b : UTCTime) : Prop :=
  a.year = b.year ∧ (a.month = b.month ∧ (a.day = b.day ∧
  (a.hour = b.hour ∧ (a.minute = b.minute ∧ a.second = b.second))))

instance (a b : UTCTime) : Decidable (SameSecond a b) := by
  unfold SameSecond; infer_instance

/-- Decimal digit character, as produced by `strftime` for a digit value. -/
def digitChar : Nat → Char
  | 0 => '0' | 1 => '1' | 2 => '2' | 3 => '3' | 4 => '4'
  | 5 => '5' | 6 => '6' | 7 => '7' | 8 => '8' | _ => '9'

/-- Two-digit zero-padded decimal rendering, as `strftime` directives
`%m`, `%d`, `%H`, `%M`, `%S` produce for their (two-digit) field values. -/
def fmt2 (n : Nat) : List Char :=
  [digitChar (n / 10), digitChar (n % 10)]

/-- Four-digit zero-padded decimal rendering, as the `strftime` directive
`%Y` produces for years in `datetime`'s range 1..9999. -/
def fmt4 (n : Nat) : List Char :=
  [digitChar (n / 1000), digitChar (n / 100 % 10), digitChar (n / 10 % 10), digitChar (n % 10)]

/-- Character list of `strftime("%Y%m%d.%H%M%S")` applied to a clock reading. -/
def strftimeChars (t : UTCTime) : List Char :=
  fmt4 t.year ++ (fmt2 t.month ++ (fmt2 t.day ++
    ('.' :: (fmt2 t.hour ++ (fmt2 t.minute ++ fmt2 t.second)))))

/-- Embeds `local_version = datetime.datetime.utcnow().strftime("%Y%m%d.%H%M%S")`
(setup.py line 18), with the clock reading made explicit. -/
def localVersion (t : UTCTime) : String :=
  ⟨strftimeChars t⟩

/-- The full version string handed to `setup`:
`test_databricks_asset_bundles.__version__ + "+" + local_version`
(setup.py line 24), with the base version and clock reading explicit. -/
def fullVersion (base : String) (t : UTCTime) : String :=
  base ++ "+" ++ localVersion t

/-- A directory entry under the source root as seen by package discovery:
its (dotted) path and whether it satisfies the package-marker predicate
(contains `__init__.py`). -/
structure DirEntry where
  path : String
  hasMarker : Bool
deriving DecidableEq, Repr

/-- Modelled from the spec: `setuptools.find_packages(where="./src")` is
external library code (not part of this repository); per the spec it is a
filesystem walk returning the sub-directories that satisfy the
package-marker predicate. -/
def findPackages (entries : List DirEntry) : List String :=
  (entries.filter (fun e => e.hasMarker)).map (fun e => e.path)

/-- The flat metadata record handed to `setuptools.setup` (setup.py
lines 20-41). -/
structure PackageMetadata where
  name : String
  version : String
  url : String
  author : String
  description : String
  packages : List String
  packageDir : List (String × String)
  entryPoints : List (String × List String)
  installRequires : List String
deriving DecidableEq, Repr

/-- The record `setup.py` passes to `setup(...)`, as a function of the base
version, the directory entries under `./src`, and the clock reading. -/
def setupArgs (base : String) (entries : List DirEntry) (t : UTCTime) : PackageMetadata :=
  { name := "test_databricks_asset_bundles"
    version := fullVersion base t
    url := "https://databricks.com"
    author := "daniel.iyiola@godevsuite072.onmicrosoft.com"
    description := "wheel file based on test_databricks_asset_bundles/src"
    packages := findPackages entries
    packageDir := [("", "src")]
    entryPoints := [("packages", ["main=test_databricks_asset_bundles.main:main"])]
    installRequires := ["setuptools"] }

/-- One execution of the `setup.py` script.  The only process-wide mutable
state the script touches is `sys.path` (line 13 appends `"./src"`); the
state is threaded explicitly and the produced metadata record is returned. -/
def runSetupScript (sysPath : List String) (base : String) (entries : List DirEntry)
    (t : UTCTime) : List String × PackageMetadata :=
  (sysPath ++ ["./src"], setupArgs base entries t)

/-- Modelled from the spec: reading the base version constant
`test_databricks_asset_bundles.__version__`.  The owning package is not
under `src/`; per the spec the read either yields the constant or
propagates a load failure, the component's only error condition. -/
def readBaseVersion (loaded : Option String) : Except String String :=
  match loaded with
  | none => Except.error "failed to load test_databricks_asset_bundles"
  | some v => Except.ok v

/-- The compute-full-version operation including its error surface: read the
base version constant, then stamp it with the timestamp suffix. -/
def buildFullVersion (loaded : Option String) (t : UTCTime) : Except String String :=
  match readBaseVersion loaded with
  | Except.error e => Except.error e
  | Except.ok v => Except.ok (fullVersion v t)

/-- The `skipif` condition of `test_main` (tests/main_test.py lines 7-10):
`os.getenv('CI') == 'true' or os.getenv('GITHUB_ACTIONS') == 'true'`.
The environment is a partial map from variable names to values. -/
def shouldSkipTestMain (env : String → Option String) : Bool :=
  (env "CI" == some "true") || (env "GITHUB_ACTIONS" == some "true")

/-- The assertion of `test_main` (tests/main_test.py line 14):
`assert taxis.count() > 5`, as a function of the row count of the loaded
taxi dataset (`get_taxis` lives in the `main` module, not under `src/`). -/
def testMainAssertion (count : Nat) : Bool :=
  decide (count > 5)

end SetupPy

namespace SetupPy

/-! ### Calendar arithmetic -/

theorem monthDays_le_31 (y m : Nat) : monthDays y m ≤ 31 := by
  unfold monthDays
  split_ifs <;> omega

theorem daysBeforeYear_succ (y : Nat) (h : 1 ≤ y) :
    daysBeforeYear (y + 1) = daysBeforeYear y + daysInYear y := by
  unfold daysBeforeYear daysInYear isLeap
  split
  · rename_i hl
    simp only [Bool.or_eq_true, Bool.and_eq_true, beq_iff_eq, bne_iff_ne, ne_eq] at hl
    omega
  · rename_i hl
    simp only [Bool.or_eq_true, Bool.and_eq_true, beq_iff_eq, bne_iff_ne, ne_eq,
      not_or, not_and, Decidable.not_not] at hl
    omega

theorem daysBeforeYear_gap {y1 y2 : Nat} (h1 : 1 ≤ y1) (h : y1 < y2) :
    daysBeforeYear y1 + daysInYear y1 ≤ daysBeforeYear y2 := by
  induction h with
  | refl => exact le_of_eq (daysBeforeYear_succ y1 h1).symm
  | step hs ih =>
    rename_i m
    have hs' : y1 + 1 ≤ m := hs
    have hm : 1 ≤ m := by omega
    rw [daysBeforeYear_succ m hm]
    omega

theorem daysBeforeMonth_gap {y m m' : Nat} (h1 : 1 ≤ m) (h : m < m') (h2 : m' ≤ 13) :
    daysBeforeMonth y m + monthDays y m ≤ daysBeforeMonth y m' := by
  have hm : m ≤ 12 := by omega
  cases hl : isLeap y <;>
  · interval_cases m <;> interval_cases m' <;> simp [daysBeforeMonth, monthDays, hl]

theorem dayOfYear_lt {y m d : Nat} (h1 : 1 ≤ m) (h2 : m ≤ 12) (h3 : 1 ≤ d)
    (h4 : d ≤ monthDays y m) : daysBeforeMonth y m + (d - 1) < daysInYear y := by
  cases hl : isLeap y <;>
  · interval_cases m <;> simp [daysBeforeMonth, monthDays, daysInYear, hl] at h4 ⊢ <;> omega

end SetupPy

namespace SetupPy

theorem toDays_lt_of_dateLt {a b : UTCTime} (ha : Valid a) (hb : Valid b)
    (h : a.year < b.year ∨ (a.year = b.year ∧ (a.month < b.month ∨
      (a.month = b.month ∧ a.day < b.day)))) :
    toDays a < toDays b := by
  obtain ⟨ha1, ha2, ha3, ha4, ha5, ha6, -, -, -, -⟩ := ha
  obtain ⟨hb1, hb2, hb3, hb4, hb5, hb6, -, -, -, -⟩ := hb
  unfold toDays
  rcases h with hy | ⟨hy, hm | ⟨hm, hd⟩⟩
  · have e1 : daysBeforeMonth a.year a.month + (a.day - 1) < daysInYear a.year :=
      dayOfYear_lt ha3 ha4 ha5 ha6
    have e2 : daysBeforeYear a.year + daysInYear a.year ≤ daysBeforeYear b.year :=
      daysBeforeYear_gap ha1 hy
    omega
  · rw [← hy]
    have e1 : daysBeforeMonth a.year a.month + monthDays a.year a.month ≤
        daysBeforeMonth a.year b.month := daysBeforeMonth_gap ha3 hm (by omega)
    omega
  · rw [← hy, ← hm]
    omega

theorem toSec_lt_of_timeLt {a b : UTCTime} (ha : Valid a) (hb : Valid b) (h : TimeLt a b) :
    toSec a < toSec b := by
  have ha' := ha
  have hb' := hb
  obtain ⟨-, -, -, -, -, -, ha7, ha8, ha9, -⟩ := ha'
  obtain ⟨-, -, -, -, -, -, hb7, hb8, hb9, -⟩ := hb'
  unfold TimeLt at h
  unfold toSec
  rcases h with hy | ⟨hy, hm | ⟨hm, hd | ⟨hd, ht⟩⟩⟩
  · have := toDays_lt_of_dateLt ha hb (Or.inl hy)
    omega
  · have := toDays_lt_of_dateLt ha hb (Or.inr ⟨hy, Or.inl hm⟩)
    omega
  · have := toDays_lt_of_dateLt ha hb (Or.inr ⟨hy, Or.inr ⟨hm, hd⟩⟩)
    omega
  · have e : toDays a = toDays b := by unfold toDays; rw [hy, hm, hd]
    omega

theorem toSec_eq_of_sameSecond {a b : UTCTime} (h : SameSecond a b) : toSec a = toSec b := by
  obtain ⟨h1, h2, h3, h4, h5, h6⟩ := h
  unfold toSec toDays
  rw [h1, h2, h3, h4, h5, h6]

theorem timeLt_trichotomy (a b : UTCTime) : TimeLt a b ∨ SameSecond a b ∨ TimeLt b a := by
  unfold TimeLt SameSecond
  omega

theorem timeLt_of_micro_gap {a b : UTCTime} (ha : Valid a) (hb : Valid b)
    (h : toMicro a + 1000000 ≤ toMicro b) : TimeLt a b := by
  have ha' := ha
  have hb' := hb
  obtain ⟨-, -, -, -, -, -, -, -, -, ha10⟩ := ha'
  obtain ⟨-, -, -, -, -, -, -, -, -, hb10⟩ := hb'
  have hsec : toSec a < toSec b := by
    unfold toMicro at h
    omega
  rcases timeLt_trichotomy a b with h1 | h1 | h1
  · exact h1
  · have := toSec_eq_of_sameSecond h1
    omega
  · have := toSec_lt_of_timeLt hb ha h1
    omega

end SetupPy

namespace SetupPy

/-! ### Digit and lexicographic string lemmas -/

theorem digitChar_lt_table : ∀ a, a < 10 → ∀ b, b < 10 →
    (digitChar a < digitChar b ↔ a < b) := by decide

theorem digitChar_eq_table : ∀ a, a < 10 → ∀ b, b < 10 →
    (digitChar a = digitChar b ↔ a = b) := by decide

theorem digitChar_isDigit (d : Nat) : (digitChar d).isDigit = true := by
  unfold digitChar
  split <;> rfl

theorem lex_cons_iff {a b : Char} {as bs : List Char} :
    a :: as < b :: bs ↔ a < b ∨ (a = b ∧ as < bs) := by
  constructor
  · intro h
    cases h with
    | rel h => exact Or.inl h
    | cons h => exact Or.inr ⟨rfl, h⟩
  · rintro (h | ⟨rfl, h⟩)
    · exact List.Lex.rel h
    · exact List.Lex.cons h

theorem not_lex_nil (as : List Char) : ¬ as < ([] : List Char) := by
  intro h
  cases h

theorem cons_self_lt_iff (c : Char) (as bs : List Char) : c :: as < c :: bs ↔ as < bs := by
  rw [lex_cons_iff]
  simp [lt_irrefl]

theorem cons_self_eq_iff (c : Char) (as bs : List Char) : c :: as = c :: bs ↔ as = bs := by
  simp

theorem fmt2_append_lt_iff {a b : Nat} (ha : a < 100) (hb : b < 100) (as bs : List Char) :
    fmt2 a ++ as < fmt2 b ++ bs ↔ a < b ∨ (a = b ∧ as < bs) := by
  show digitChar (a / 10) :: digitChar (a % 10) :: as <
    digitChar (b / 10) :: digitChar (b % 10) :: bs ↔ _
  rw [lex_cons_iff, lex_cons_iff,
    digitChar_lt_table (a / 10) (by omega) (b / 10) (by omega),
    digitChar_lt_table (a % 10) (by omega) (b % 10) (by omega),
    digitChar_eq_table (a / 10) (by omega) (b / 10) (by omega),
    digitChar_eq_table (a % 10) (by omega) (b % 10) (by omega)]
  constructor
  · rintro (h | ⟨h1, h | ⟨h2, hP⟩⟩)
    · exact Or.inl (by omega)
    · exact Or.inl (by omega)
    · exact Or.inr ⟨by omega, hP⟩
  · rintro (h | ⟨h, hP⟩)
    · have h2 : a / 10 < b / 10 ∨ (a / 10 = b / 10 ∧ a % 10 < b % 10) := by omega
      rcases h2 with h2 | ⟨h2, h3⟩
      · exact Or.inl h2
      · exact Or.inr ⟨h2, Or.inl h3⟩
    · exact Or.inr ⟨by omega, Or.inr ⟨by omega, hP⟩⟩

theorem fmt2_lt_iff {a b : Nat} (ha : a < 100) (hb : b < 100) :
    fmt2 a < fmt2 b ↔ a < b := by
  show digitChar (a / 10) :: digitChar (a % 10) :: [] <
    digitChar (b / 10) :: digitChar (b % 10) :: [] ↔ _
  rw [lex_cons_iff, lex_cons_iff,
    digitChar_lt_table (a / 10) (by omega) (b / 10) (by omega),
    digitChar_lt_table (a % 10) (by omega) (b % 10) (by omega),
    digitChar_eq_table (a / 10) (by omega) (b / 10) (by omega)]
  simp only [not_lex_nil, or_false, and_false]
  omega

theorem fmt2_append_eq_iff {a b : Nat} (ha : a < 100) (hb : b < 100) (as bs : List Char) :
    fmt2 a ++ as = fmt2 b ++ bs ↔ a = b ∧ as = bs := by
  show digitChar (a / 10) :: digitChar (a % 10) :: as =
    digitChar (b / 10) :: digitChar (b % 10) :: bs ↔ _
  simp only [List.cons.injEq]
  rw [digitChar_eq_table (a / 10) (by omega) (b / 10) (by omega),
    digitChar_eq_table (a % 10) (by omega) (b % 10) (by omega)]
  constructor
  · rintro ⟨h1, h2, h3⟩
    exact ⟨by omega, h3⟩
  · rintro ⟨h, h3⟩
    exact ⟨by omega, by omega, h3⟩

theorem fmt2_eq_iff {a b : Nat} (ha : a < 100) (hb : b < 100) :
    fmt2 a = fmt2 b ↔ a = b := by
  show digitChar (a / 10) :: digitChar (a % 10) :: [] =
    digitChar (b / 10) :: digitChar (b % 10) :: [] ↔ _
  simp only [List.cons.injEq, and_true]
  rw [digitChar_eq_table (a / 10) (by omega) (b / 10) (by omega),
    digitChar_eq_table (a % 10) (by omega) (b % 10) (by omega)]
  omega

theorem fmt4_append_lt_iff {a b : Nat} (ha : a < 10000) (hb : b < 10000) (as bs : List Char) :
    fmt4 a ++ as < fmt4 b ++ bs ↔ a < b ∨ (a = b ∧ as < bs) := by
  show digitChar (a / 1000) :: digitChar (a / 100 % 10) :: digitChar (a / 10 % 10) ::
      digitChar (a % 10) :: as <
    digitChar (b / 1000) :: digitChar (b / 100 % 10) :: digitChar (b / 10 % 10) ::
      digitChar (b % 10) :: bs ↔ _
  rw [lex_cons_iff, lex_cons_iff, lex_cons_iff, lex_cons_iff,
    digitChar_lt_table (a / 1000) (by omega) (b / 1000) (by omega),
    digitChar_lt_table (a / 100 % 10) (by omega) (b / 100 % 10) (by omega),
    digitChar_lt_table (a / 10 % 10) (by omega) (b / 10 % 10) (by omega),
    digitChar_lt_table (a % 10) (by omega) (b % 10) (by omega),
    digitChar_eq_table (a / 1000) (by omega) (b / 1000) (by omega),
    digitChar_eq_table (a / 100 % 10) (by omega) (b / 100 % 10) (by omega),
    digitChar_eq_table (a / 10 % 10) (by omega) (b / 10 % 10) (by omega),
    digitChar_eq_table (a % 10) (by omega) (b % 10) (by omega)]
  constructor
  · rintro (h | ⟨h1, h | ⟨h2, h | ⟨h3, h | ⟨h4, hP⟩⟩⟩⟩)
    · exact Or.inl (by omega)
    · exact Or.inl (by omega)
    · exact Or.inl (by omega)
    · exact Or.inl (by omega)
    · exact Or.inr ⟨by omega, hP⟩
  · rintro (h | ⟨h, hP⟩)
    · have h2 : a / 1000 < b / 1000 ∨ (a / 1000 = b / 1000 ∧
        (a / 100 % 10 < b / 100 % 10 ∨ (a / 100 % 10 = b / 100 % 10 ∧
        (a / 10 % 10 < b / 10 % 10 ∨ (a / 10 % 10 = b / 10 % 10 ∧
        a % 10 < b % 10))))) := by omega
      rcases h2 with h2 | ⟨h2, h3 | ⟨h3, h4 | ⟨h4, h5⟩⟩⟩
      · exact Or.inl h2
      · exact Or.inr ⟨h2, Or.inl h3⟩
      · exact Or.inr ⟨h2, Or.inr ⟨h3, Or.inl h4⟩⟩
      · exact Or.inr ⟨h2, Or.inr ⟨h3, Or.inr ⟨h4, Or.inl h5⟩⟩⟩
    · exact Or.inr ⟨by omega, Or.inr ⟨by omega, Or.inr ⟨by omega, Or.inr ⟨by omega, hP⟩⟩⟩⟩

theorem fmt4_append_eq_iff {a b : Nat} (ha : a < 10000) (hb : b < 10000) (as bs : List Char) :
    fmt4 a ++ as = fmt4 b ++ bs ↔ a = b ∧ as = bs := by
  show digitChar (a / 1000) :: digitChar (a / 100 % 10) :: digitChar (a / 10 % 10) ::
      digitChar (a % 10) :: as =
    digitChar (b / 1000) :: digitChar (b / 100 % 10) :: digitChar (b / 10 % 10) ::
      digitChar (b % 10) :: bs ↔ _
  simp only [List.cons.injEq]
  rw [digitChar_eq_table (a / 1000) (by omega) (b / 1000) (by omega),
    digitChar_eq_table (a / 100 % 10) (by omega) (b / 100 % 10) (by omega),
    digitChar_eq_table (a / 10 % 10) (by omega) (b / 10 % 10) (by omega),
    digitChar_eq_table (a % 10) (by omega) (b % 10) (by omega)]
  constructor
  · rintro ⟨h1, h2, h3, h4, h5⟩
    exact ⟨by omega, h5⟩
  · rintro ⟨h, h5⟩
    exact ⟨by omega, by omega, by omega, by omega, h5⟩

theorem append_left_lt_iff (p as bs : List Char) : p ++ as < p ++ bs ↔ as < bs := by
  induction p with
  | nil => exact Iff.rfl
  | cons c p ih =>
    show c :: (p ++ as) < c :: (p ++ bs) ↔ _
    rw [cons_self_lt_iff, ih]

end SetupPy

namespace SetupPy

/-! ### The timestamp suffix orders like the clock -/

theorem strftimeChars_lt_iff {a b : UTCTime} (ha : Valid a) (hb : Valid b) :
    strftimeChars a < strftimeChars b ↔ TimeLt a b := by
  obtain ⟨ha1, ha2, ha3, ha4, ha5, ha6, ha7, ha8, ha9, -⟩ := ha
  obtain ⟨hb1, hb2, hb3, hb4, hb5, hb6, hb7, hb8, hb9, -⟩ := hb
  have hda : a.day ≤ 31 := le_trans ha6 (monthDays_le_31 _ _)
  have hdb : b.day ≤ 31 := le_trans hb6 (monthDays_le_31 _ _)
  unfold strftimeChars TimeLt
  rw [fmt4_append_lt_iff (by omega) (by omega),
    fmt2_append_lt_iff (by omega) (by omega),
    fmt2_append_lt_iff (by omega) (by omega),
    cons_self_lt_iff,
    fmt2_append_lt_iff (by omega) (by omega),
    fmt2_append_lt_iff (by omega) (by omega),
    fmt2_lt_iff (by omega) (by omega)]

theorem strftimeChars_eq_iff {a b : UTCTime} (ha : Valid a) (hb : Valid b) :
    strftimeChars a = strftimeChars b ↔ SameSecond a b := by
  obtain ⟨ha1, ha2, ha3, ha4, ha5, ha6, ha7, ha8, ha9, -⟩ := ha
  obtain ⟨hb1, hb2, hb3, hb4, hb5, hb6, hb7, hb8, hb9, -⟩ := hb
  have hda : a.day ≤ 31 := le_trans ha6 (monthDays_le_31 _ _)
  have hdb : b.day ≤ 31 := le_trans hb6 (monthDays_le_31 _ _)
  unfold strftimeChars SameSecond
  rw [fmt4_append_eq_iff (by omega) (by omega),
    fmt2_append_eq_iff (by omega) (by omega),
    fmt2_append_eq_iff (by omega) (by omega),
    cons_self_eq_iff,
    fmt2_append_eq_iff (by omega) (by omega),
    fmt2_append_eq_iff (by omega) (by omega),
    fmt2_eq_iff (by omega) (by omega)]

theorem strftimeChars_length (t : UTCTime) : (strftimeChars t).length = 15 := rfl

/-! ### Bridging to the version strings -/

theorem fullVersion_data (base : String) (t : UTCTime) :
    (fullVersion base t).data = base.data ++ ('+' :: strftimeChars t) := by
  unfold fullVersion localVersion
  show (base.data ++ ("+" : String).data) ++ strftimeChars t = _
  rw [List.append_assoc]
  rfl

theorem fullVersion_lt_iff (base : String) {a b : UTCTime} (ha : Valid a) (hb : Valid b) :
    fullVersion base a < fullVersion base b ↔ TimeLt a b := by
  rw [String.lt_iff_toList_lt]
  show (fullVersion base a).data < (fullVersion base b).data ↔ _
  rw [fullVersion_data, fullVersion_data, append_left_lt_iff, cons_self_lt_iff,
    strftimeChars_lt_iff ha hb]

theorem fullVersion_ne_of_gap {v1 v2 : String} {a b : UTCTime} (ha : Valid a) (hb : Valid b)
    (h : toMicro a + 1000000 ≤ toMicro b) : fullVersion v1 a ≠ fullVersion v2 b := by
  intro he
  have ha' := ha
  have hb' := hb
  obtain ⟨-, -, -, -, -, -, -, -, -, ha10⟩ := ha'
  obtain ⟨-, -, -, -, -, -, -, -, -, hb10⟩ := hb'
  have hd : (fullVersion v1 a).data = (fullVersion v2 b).data := by rw [he]
  rw [fullVersion_data, fullVersion_data] at hd
  have hlen : v1.data.length = v2.data.length := by
    have h2 := congrArg List.length hd
    simp only [List.length_append, List.length_cons, strftimeChars_length] at h2
    omega
  obtain ⟨-, h2⟩ := List.append_inj hd hlen
  have h3 : strftimeChars a = strftimeChars b := by
    injection h2
  have h4 : SameSecond a b := (strftimeChars_eq_iff ha hb).mp h3
  have h5 : toSec a = toSec b := toSec_eq_of_sameSecond h4
  unfold toMicro at h
  omega

theorem fullVersion_ne_empty (v : String) (t : UTCTime) : fullVersion v t ≠ "" := by
  intro h
  have hd := congrArg String.data h
  rw [fullVersion_data] at hd
  simp at hd

end SetupPy

namespace SetupPy

theorem fmt2_digits (n : Nat) : ∀ c ∈ fmt2 n, c.isDigit = true := by
  intro c hc
  simp only [fmt2, List.mem_cons, List.not_mem_nil, or_false] at hc
  rcases hc with h | h <;> rw [h] <;> exact digitChar_isDigit _

theorem fmt4_digits (n : Nat) : ∀ c ∈ fmt4 n, c.isDigit = true := by
  intro c hc
  simp only [fmt4, List.mem_cons, List.not_mem_nil, or_false] at hc
  rcases hc with h | h | h | h <;> rw [h] <;> exact digitChar_isDigit _

/-! ### The claims -/

/-- Claim C1: with base version "0.0.1" and the clock frozen at
2024-03-05 08:09:10 UTC, the computed full version string equals
"0.0.1+20240305.080910". -/
theorem claim_C1 :
    fullVersion "0.0.1" ⟨2024, 3, 5, 8, 9, 10, 0⟩ = "0.0.1+20240305.080910" := rfl

/-- Claim C2: for every clock reading the operation returns the base
version, a literal plus sign, and the formatted timestamp, concatenated in
that order, and the timestamp suffix matches the fixed pattern of exactly
8 digits, a literal dot, and exactly 6 digits. -/
theorem claim_C2 (base : String) (t : UTCTime) (_h : Valid t) :
    fullVersion base t = base ++ "+" ++ localVersion t ∧
    ∃ dPart tPart : List Char,
      (localVersion t).data = dPart ++ '.' :: tPart ∧
      dPart.length = 8 ∧ tPart.length = 6 ∧
      (∀ c ∈ dPart, c.isDigit = true) ∧ (∀ c ∈ tPart, c.isDigit = true) := by
  refine ⟨rfl, fmt4 t.year ++ fmt2 t.month ++ fmt2 t.day,
    fmt2 t.hour ++ fmt2 t.minute ++ fmt2 t.second, ?_, ?_, ?_, ?_, ?_⟩
  · show strftimeChars t = _
    unfold strftimeChars
    simp [List.append_assoc]
  · simp [fmt4, fmt2]
  · simp [fmt2]
  · intro c hc
    rcases List.mem_append.mp hc with hc | hc
    · rcases List.mem_append.mp hc with hc | hc
      · exact fmt4_digits _ c hc
      · exact fmt2_digits _ c hc
    · exact fmt2_digits _ c hc
  · intro c hc
    rcases List.mem_append.mp hc with hc | hc
    · rcases List.mem_append.mp hc with hc | hc
      · exact fmt2_digits _ c hc
      · exact fmt2_digits _ c hc
    · exact fmt2_digits _ c hc

theorem claim_C2_witness :
    Valid ⟨2024, 3, 5, 8, 9, 10, 0⟩ ∧
    (fullVersion "0.0.1" ⟨2024, 3, 5, 8, 9, 10, 0⟩ =
        "0.0.1" ++ "+" ++ localVersion ⟨2024, 3, 5, 8, 9, 10, 0⟩ ∧
      ∃ dPart tPart : List Char,
        (localVersion ⟨2024, 3, 5, 8, 9, 10, 0⟩).data = dPart ++ '.' :: tPart ∧
        dPart.length = 8 ∧ tPart.length = 6 ∧
        (∀ c ∈ dPart, c.isDigit = true) ∧ (∀ c ∈ tPart, c.isDigit = true)) :=
  ⟨by decide, claim_C2 "0.0.1" ⟨2024, 3, 5, 8, 9, 10, 0⟩ (by decide)⟩

/-- Claim C3: two builds with the same base version whose UTC clock
readings are at least one second apart produce distinct full version
strings, and the later build's string is lexicographically greater. -/
theorem claim_C3 (base : String) (t1 t2 : UTCTime) (h1 : Valid t1) (h2 : Valid t2)
    (hgap : toMicro t1 + 1000000 ≤ toMicro t2) :
    fullVersion base t1 ≠ fullVersion base t2 ∧
    fullVersion base t1 < fullVersion base t2 := by
  have hlt := (fullVersion_lt_iff base h1 h2).mpr (timeLt_of_micro_gap h1 h2 hgap)
  exact ⟨ne_of_lt hlt, hlt⟩

theorem claim_C3_witness :
    Valid ⟨2024, 3, 5, 8, 9, 10, 500000⟩ ∧ Valid ⟨2024, 3, 5, 8, 9, 11, 500000⟩ ∧
    toMicro ⟨2024, 3, 5, 8, 9, 10, 500000⟩ + 1000000 ≤ toMicro ⟨2024, 3, 5, 8, 9, 11, 500000⟩ ∧
    (fullVersion "0.0.1" ⟨2024, 3, 5, 8, 9, 10, 500000⟩ ≠
        fullVersion "0.0.1" ⟨2024, 3, 5, 8, 9, 11, 500000⟩ ∧
      fullVersion "0.0.1" ⟨2024, 3, 5, 8, 9, 10, 500000⟩ <
        fullVersion "0.0.1" ⟨2024, 3, 5, 8, 9, 11, 500000⟩) :=
  ⟨by decide, by decide, by decide,
    claim_C3 "0.0.1" ⟨2024, 3, 5, 8, 9, 10, 500000⟩ ⟨2024, 3, 5, 8, 9, 11, 500000⟩
      (by decide) (by decide) (by decide)⟩

/-- Claim C4: the timestamp suffix is a deterministic function of the
clock reading at second granularity: two clock readings within the same
second yield identical local version suffixes. -/
theorem claim_C4 (t1 t2 : UTCTime) (h : SameSecond t1 t2) :
    localVersion t1 = localVersion t2 := by
  obtain ⟨h1, h2, h3, h4, h5, h6⟩ := h
  unfold localVersion strftimeChars
  rw [h1, h2, h3, h4, h5, h6]

theorem claim_C4_witness :
    SameSecond ⟨2024, 3, 5, 8, 9, 10, 1⟩ ⟨2024, 3, 5, 8, 9, 10, 999999⟩ ∧
    localVersion ⟨2024, 3, 5, 8, 9, 10, 1⟩ = localVersion ⟨2024, 3, 5, 8, 9, 10, 999999⟩ :=
  ⟨by decide, claim_C4 ⟨2024, 3, 5, 8, 9, 10, 1⟩ ⟨2024, 3, 5, 8, 9, 10, 999999⟩ (by decide)⟩

/-- Claim C5: whenever at least one directory entry under ./src satisfies
the package-marker predicate, the metadata record handed to the packaging
tool has a non-empty packages list. -/
theorem claim_C5 (base : String) (entries : List DirEntry) (t : UTCTime)
    (h : ∃ e ∈ entries, e.hasMarker = true) :
    (setupArgs base entries t).packages ≠ [] := by
  obtain ⟨e, he, hm⟩ := h
  show findPackages entries ≠ []
  unfold findPackages
  intro hnil
  have hmem : e ∈ entries.filter (fun e => e.hasMarker) := List.mem_filter.mpr ⟨he, hm⟩
  rw [List.map_eq_nil_iff.mp hnil] at hmem
  exact absurd hmem (List.not_mem_nil e)

theorem claim_C5_witness :
    (∃ e ∈ [DirEntry.mk "test_databricks_asset_bundles" true], e.hasMarker = true) ∧
    (setupArgs "0.0.1" [DirEntry.mk "test_databricks_asset_bundles" true]
      ⟨2024, 3, 5, 8, 9, 10, 0⟩).packages ≠ [] :=
  ⟨by decide, claim_C5 "0.0.1" [DirEntry.mk "test_databricks_asset_bundles" true]
    ⟨2024, 3, 5, 8, 9, 10, 0⟩ (by decide)⟩

/-- Claim C6: the compute-full-version operation fails exactly when the
base version constant cannot be read (the owning package fails to load),
and in that case the load failure propagates; with the constant available
it always succeeds with the stamped version. -/
theorem claim_C6 (loaded : Option String) (t : UTCTime) :
    ((∃ e, buildFullVersion loaded t = Except.error e) ↔ loaded = none) ∧
    (∀ v, loaded = some v → buildFullVersion loaded t = Except.ok (fullVersion v t)) := by
  cases loaded <;> simp [buildFullVersion, readBaseVersion]

theorem claim_C6_witness :
    (((∃ e, buildFullVersion (some "0.0.1") ⟨2024, 3, 5, 8, 9, 10, 0⟩ = Except.error e) ↔
        some "0.0.1" = none) ∧
      (∀ v, some "0.0.1" = some v →
        buildFullVersion (some "0.0.1") ⟨2024, 3, 5, 8, 9, 10, 0⟩ =
          Except.ok (fullVersion v ⟨2024, 3, 5, 8, 9, 10, 0⟩))) ∧
    buildFullVersion (some "0.0.1") ⟨2024, 3, 5, 8, 9, 10, 0⟩ =
      Except.ok (fullVersion "0.0.1" ⟨2024, 3, 5, 8, 9, 10, 0⟩) :=
  ⟨claim_C6 (some "0.0.1") ⟨2024, 3, 5, 8, 9, 10, 0⟩,
    (claim_C6 (some "0.0.1") ⟨2024, 3, 5, 8, 9, 10, 0⟩).2 "0.0.1" rfl⟩

/-- Claim C7: running the setup script twice in the same process (the only
shared state being sys.path) raises no error and yields two metadata
records, each determined solely by its own invocation's inputs. -/
theorem claim_C7 (sysPath : List String) (base : String) (entries : List DirEntry)
    (t1 t2 : UTCTime) :
    (runSetupScript sysPath base entries t1).2 = setupArgs base entries t1 ∧
    (runSetupScript (runSetupScript sysPath base entries t1).1 base entries t2).2 =
      setupArgs base entries t2 :=
  ⟨rfl, rfl⟩

/-- Claim C8: the full version string is non-empty for every base version
and clock reading, and builds at least one second apart (even with
different base versions) produce distinct strings. -/
theorem claim_C8 (v v1 v2 : String) (t t1 t2 : UTCTime) :
    fullVersion v t ≠ "" ∧
    (Valid t1 → Valid t2 → toMicro t1 + 1000000 ≤ toMicro t2 →
      fullVersion v1 t1 ≠ fullVersion v2 t2) :=
  ⟨fullVersion_ne_empty v t, fun h1 h2 hgap => fullVersion_ne_of_gap h1 h2 hgap⟩

theorem claim_C8_witness :
    Valid ⟨2024, 3, 5, 8, 9, 10, 0⟩ ∧ Valid ⟨2024, 3, 5, 8, 9, 11, 0⟩ ∧
    toMicro ⟨2024, 3, 5, 8, 9, 10, 0⟩ + 1000000 ≤ toMicro ⟨2024, 3, 5, 8, 9, 11, 0⟩ ∧
    fullVersion "" ⟨2024, 3, 5, 8, 9, 10, 0⟩ ≠ "" ∧
    fullVersion "0.0.1" ⟨2024, 3, 5, 8, 9, 10, 0⟩ ≠ fullVersion "0.0.2" ⟨2024, 3, 5, 8, 9, 11, 0⟩ :=
  ⟨by decide, by decide, by decide,
    (claim_C8 "" "0.0.1" "0.0.2" ⟨2024, 3, 5, 8, 9, 10, 0⟩ ⟨2024, 3, 5, 8, 9, 10, 0⟩
      ⟨2024, 3, 5, 8, 9, 11, 0⟩).1,
    (claim_C8 "" "0.0.1" "0.0.2" ⟨2024, 3, 5, 8, 9, 10, 0⟩ ⟨2024, 3, 5, 8, 9, 10, 0⟩
      ⟨2024, 3, 5, 8, 9, 11, 0⟩).2 (by decide) (by decide) (by decide)⟩

/-- Claim C9: test_main is skipped exactly when the environment variable
CI equals "true" or GITHUB_ACTIONS equals "true"; when it runs, its
assertion passes exactly when the taxi dataset row count exceeds 5. -/
theorem claim_C9 :
    (∀ env : String → Option String,
      (shouldSkipTestMain env = true ↔
        (env "CI" = some "true" ∨ env "GITHUB_ACTIONS" = some "true"))) ∧
    (∀ count : Nat, testMainAssertion count = true ↔ count > 5) := by
  constructor
  · intro env
    simp [shouldSkipTestMain]
  · intro count
    simp [testMainAssertion]

/-- Claim C10: metadata records from build invocations at different clock
readings agree on every field except version: name, url, author,
description, packages, package_dir, entry_points and install_requires do
not depend on the clock. -/
theorem claim_C10 (base : String) (entries : List DirEntry) (t1 t2 : UTCTime)
    (_h : t1 ≠ t2) :
    (setupArgs base entries t1).name = (setupArgs base entries t2).name ∧
    (setupArgs base entries t1).url = (setupArgs base entries t2).url ∧
    (setupArgs base entries t1).author = (setupArgs base entries t2).author ∧
    (setupArgs base entries t1).description = (setupArgs base entries t2).description ∧
    (setupArgs base entries t1).packages = (setupArgs base entries t2).packages ∧
    (setupArgs base entries t1).packageDir = (setupArgs base entries t2).packageDir ∧
    (setupArgs base entries t1).entryPoints = (setupArgs base entries t2).entryPoints ∧
    (setupArgs base entries t1).installRequires = (setupArgs base entries t2).installRequires :=
  ⟨rfl, rfl, rfl, rfl, rfl, rfl, rfl, rfl⟩

theorem claim_C10_witness :
    (⟨2024, 3, 5, 8, 9, 10, 0⟩ : UTCTime) ≠ ⟨2024, 3, 5, 8, 9, 11, 0⟩ ∧
    ((setupArgs "0.0.1" [] ⟨2024, 3, 5, 8, 9, 10, 0⟩).name =
        (setupArgs "0.0.1" [] ⟨2024, 3, 5, 8, 9, 11, 0⟩).name ∧
      (setupArgs "0.0.1" [] ⟨2024, 3, 5, 8, 9, 10, 0⟩).url =
        (setupArgs "0.0.1" [] ⟨2024, 3, 5, 8, 9, 11, 0⟩).url ∧
      (setupArgs "0.0.1" [] ⟨2024, 3, 5, 8, 9, 10, 0⟩).author =
        (setupArgs "0.0.1" [] ⟨2024, 3, 5, 8, 9, 11, 0⟩).author ∧
      (setupArgs "0.0.1" [] ⟨2024, 3, 5, 8, 9, 10, 0⟩).description =
        (setupArgs "0.0.1" [] ⟨2024, 3, 5, 8, 9, 11, 0⟩).description ∧
      (setupArgs "0.0.1" [] ⟨2024, 3, 5, 8, 9, 10, 0⟩).packages =
        (setupArgs "0.0.1" [] ⟨2024, 3, 5, 8, 9, 11, 0⟩).packages ∧
      (setupArgs "0.0.1" [] ⟨2024, 3, 5, 8, 9, 10, 0⟩).packageDir =
        (setupArgs "0.0.1" [] ⟨2024, 3, 5, 8, 9, 11, 0⟩).packageDir ∧
      (setupArgs "0.0.1" [] ⟨2024, 3, 5, 8, 9, 10, 0⟩).entryPoints =
        (setupArgs "0.0.1" [] ⟨2024, 3, 5, 8, 9, 11, 0⟩).entryPoints ∧
      (setupArgs "0.0.1" [] ⟨2024, 3, 5, 8, 9, 10, 0⟩).installRequires =
        (setupArgs "0.0.1" [] ⟨2024, 3, 5, 8, 9, 11, 0⟩).installRequires) :=
  ⟨by decide, claim_C10 "0.0.1" [] ⟨2024, 3, 5, 8, 9, 10, 0⟩ ⟨2024, 3, 5, 8, 9, 11, 0⟩
    (by decide)⟩

end SetupPy
